import Mathlib

/-!
Verification of the brizzle code generator's core library against its
specification.  The TypeScript sources under `src/lib` and `src/generators`
are shallowly embedded as executable Lean definitions: the filesystem is an
explicit state value, thrown exceptions become `Except` errors, and the
JavaScript regular expressions used by the code are translated into concrete
character-list scanners.
-/

namespace Brizzle

/-! ### Character classes (ASCII, as used by the JS regexes) -/

/-- ASCII lowercase letter, `[a-z]`. -/
def isLowerAlpha (c : Char) : Bool := 97 ≤ c.toNat && c.toNat ≤ 122

/-- ASCII uppercase letter, `[A-Z]`. -/
def isUpperAlpha (c : Char) : Bool := 65 ≤ c.toNat && c.toNat ≤ 90

/-- ASCII digit, `[0-9]`. -/
def isDigitCh (c : Char) : Bool := 48 ≤ c.toNat && c.toNat ≤ 57

/-- ASCII letter or digit, `[A-Za-z0-9]`. -/
def isAlphaNumCh (c : Char) : Bool := isLowerAlpha c || isUpperAlpha c || isDigitCh c

/-- Word character, the JS regex class `\w` = `[A-Za-z0-9_]`. -/
def isWordChar (c : Char) : Bool := isAlphaNumCh c || c == '_'

/-- Whitespace, the JS regex class `\s` restricted to its ASCII members
(space, tab, newline, carriage return, vertical tab, form feed). -/
def isWsCh (c : Char) : Bool :=
  [' ', '\t', '\n', '\r', Char.ofNat 11, Char.ofNat 12].contains c

/-- The double-quote character. -/
def dquote : Char := Char.ofNat 34

/-- The single-quote character. -/
def squote : Char := Char.ofNat 39

/-- A JS string-quote character, the regex class matching a double or single
quote. -/
def isQuoteCh (c : Char) : Bool := c == dquote || c == squote

/-- Lowercase an ASCII uppercase letter, leaving other characters unchanged.
This is `String.prototype.toLowerCase` restricted to ASCII, which is the only
case reachable in `validateModelName` (the name has already matched
an ASCII-letters-and-digits regex when `toLowerCase` is applied). -/
def lowerCh (c : Char) : Char :=
  if isUpperAlpha c then Char.ofNat (c.toNat + 32) else c

/-- ASCII `toLowerCase` on strings. -/
def toLowerAscii (s : String) : String := String.mk (s.data.map lowerCh)

/-- The JS regex `^[a-z][a-zA-Z0-9]*$` from `src/lib/validation.ts`:
a camelCase identifier, one lowercase letter followed by letters/digits. -/
def camelPat (s : String) : Bool :=
  match s.data with
  | [] => false
  | c :: rest => isLowerAlpha c && rest.all isAlphaNumCh

/-- The JS regex `^[A-Za-z][A-Za-z0-9]*$` from `src/lib/validation.ts`:
a letter (either case) followed by letters/digits. -/
def modelNamePat (s : String) : Bool :=
  match s.data with
  | [] => false
  | c :: rest => (isLowerAlpha c || isUpperAlpha c) && rest.all isAlphaNumCh

/-! ### `src/lib/types.ts` -/

/-- The `VALID_FIELD_TYPES` constant from `src/lib/types.ts`. -/
def VALID_FIELD_TYPES : List String :=
  ["string", "text", "integer", "int", "bigint", "boolean", "bool",
   "datetime", "timestamp", "date", "float", "decimal", "json", "uuid"]

/-- The `Dialect` union type from `src/lib/types.ts`. -/
inductive Dialect where
  | sqlite
  | postgresql
  | mysql
deriving DecidableEq, BEq

/-- The `GeneratorOptions` interface from `src/lib/types.ts`; absent optional
fields are modelled as `false`. -/
structure GeneratorOptions where
  force : Bool
  dryRun : Bool
  uuid : Bool
  noTimestamps : Bool
deriving DecidableEq

/-! ### `src/lib/validation.ts` -/

/-- The distinct `throw new Error(...)` sites of `src/lib/validation.ts`,
each carrying the offending token instead of the formatted message text. -/
inductive ValidationError where
  | modelNameRequired
  | invalidModelName (name : String)
  | reservedModelName (name : String)
  | fieldNameRequired (fieldDef : String)
  | invalidFieldName (name : String)
  | invalidFieldType (ty : String)
  | enumRequiresValues (name : String)
deriving DecidableEq

/-- The `reserved` list inside `validateModelName`. -/
def reservedNames : List String := ["model", "schema", "db", "database", "table"]

/-- `validateModelName` from `src/lib/validation.ts` lines 3-16: empty name,
then the `^[A-Za-z][A-Za-z0-9]*$` regex, then the case-insensitive reserved
list, each failure throwing. -/
def validateModelName (name : String) : Except ValidationError Unit :=
  if name = "" then Except.error ValidationError.modelNameRequired
  else if modelNamePat name = false then Except.error (ValidationError.invalidModelName name)
  else if reservedNames.contains (toLowerAscii name) then
    Except.error (ValidationError.reservedModelName name)
  else Except.ok ()

/-- Split on a single-character separator, as `String.prototype.split` does:
splitting the empty string yields `[""]`, and a trailing separator yields a
trailing empty segment. -/
def jsSplitAux (sep : Char) : List Char → List Char → List (List Char)
  | [], acc => [acc.reverse]
  | c :: rest, acc =>
    if c == sep then acc.reverse :: jsSplitAux sep rest []
    else jsSplitAux sep rest (c :: acc)

/-- `s.split(sep)` for a one-character separator. -/
def jsSplit (sep : Char) (s : String) : List String :=
  (jsSplitAux sep s.data []).map String.mk

/-- `fieldDef.split(":")` — the colon-separated segments of a field
definition (`src/lib/validation.ts` line 19). -/
def fieldParts (fieldDef : String) : List String := jsSplit ':' fieldDef

/-- `s.endsWith("?")`. -/
def hasTrailingQ (s : String) : Bool :=
  match s.data.getLast? with
  | some c => c == '?'
  | none => false

/-- Strip one trailing `?` (the nullable marker) from a segment, as done to
both the name and the type segment in `validateFieldDefinition`
(`name.slice(0, -1)`). -/
def stripQ (s : String) : String :=
  if hasTrailingQ s then String.mk s.data.dropLast else s

/-- The name segment of a field definition: `parts[0]` with a trailing `?`
stripped (`src/lib/validation.ts` lines 19-26). -/
def fieldNameOf (fieldDef : String) : String :=
  stripQ ((fieldParts fieldDef).headD "")

/-- The type segment of a field definition: `parts[1] || "string"` (so an
absent or empty second segment defaults to `"string"`), with a trailing `?`
stripped (`src/lib/validation.ts` lines 21, 27-29). -/
def fieldTypeOf (fieldDef : String) : String :=
  let t := match (fieldParts fieldDef).get? 1 with
    | some s => if s = "" then "string" else s
    | none => "string"
  stripQ t

/-- `validateFieldDefinition` from `src/lib/validation.ts` lines 18-55:
checks the name segment (non-empty, camelCase regex), then the type segment
(must be a known type unless it starts with `references`, or is `enum` or
`unique`; the JS guard `if (type && ...)` skips the check when the stripped
type is empty), then the positional enum value list (`parts[2]` must be
present, non-empty and not the literal `unique`). -/
def validateFieldDefinition (fieldDef : String) : Except ValidationError Unit :=
  if fieldNameOf fieldDef = "" then Except.error (ValidationError.fieldNameRequired fieldDef)
  else if camelPat (fieldNameOf fieldDef) = false then
    Except.error (ValidationError.invalidFieldName (fieldNameOf fieldDef))
  else if fieldTypeOf fieldDef ≠ ""
      ∧ ¬ "references".data.isPrefixOf (fieldTypeOf fieldDef).data
      ∧ fieldTypeOf fieldDef ≠ "enum" ∧ fieldTypeOf fieldDef ≠ "unique"
      ∧ ¬ VALID_FIELD_TYPES.contains (fieldTypeOf fieldDef) then
    Except.error (ValidationError.invalidFieldType (fieldTypeOf fieldDef))
  else if fieldTypeOf fieldDef = "enum" then
    match (fieldParts fieldDef).get? 2 with
    | none => Except.error (ValidationError.enumRequiresValues (fieldNameOf fieldDef))
    | some v =>
      if v = "" ∨ v = "unique" then
        Except.error (ValidationError.enumRequiresValues (fieldNameOf fieldDef))
      else Except.ok ()
  else Except.ok ()

/-- Whether a validation outcome is one of the two name errors of
`validateFieldDefinition` (name missing, or name failing the camelCase
regex). -/
def isNameError (r : Except ValidationError Unit) : Bool :=
  match r with
  | Except.error (ValidationError.fieldNameRequired _) => true
  | Except.error (ValidationError.invalidFieldName _) => true
  | _ => false

/-! ### Filesystem state

The Node `fs` module is modelled as an explicit state value: an association
list of file paths to contents plus a list of directory paths.  `existsSync`
is true for a path holding either a file or a directory. -/

/-- The filesystem state threaded through the embedded functions. -/
structure FS where
  files : List (String × String)
  dirs : List String
deriving DecidableEq

/-- `fs.existsSync`. -/
def existsSyncFS (fs : FS) (p : String) : Bool :=
  (fs.files.lookup p).isSome || fs.dirs.contains p

/-- `fs.readFileSync` on a text file; every call in the embedded code is
guarded by `existsSync`, so the missing-file exception is unreachable and the
default is arbitrary. -/
def readFileSyncFS (fs : FS) (p : String) : String :=
  (fs.files.lookup p).getD ""

/-- Replace-or-insert for the file association list (`fs.writeFileSync`). -/
def setFile : List (String × String) → String → String → List (String × String)
  | [], p, c => [(p, c)]
  | (q, v) :: rest, p, c =>
    if q = p then (p, c) :: rest else (q, v) :: setFile rest p c

/-- Node `path.join` for the two-argument calls in the sources; the embedded
working directories carry no trailing slash, so joining is concatenation with
a separator. -/
def pathJoin (a b : String) : String := a ++ "/" ++ b

/-- Node `path.dirname`: the part of the path before the final slash (`"."`
when there is no slash, `"/"` for a top-level entry). -/
def dirname (s : String) : String :=
  let rev := s.data.reverse
  let afterLast := rev.dropWhile (fun c => !(c == '/'))
  match afterLast with
  | [] => "."
  | _ :: rest => if rest = [] then "/" else String.mk rest.reverse

/-! ### `src/lib/logger.ts` -/

/-- The method names of the `log` object literal in `src/lib/logger.ts`.
The object defines exactly these ten methods; in particular it has no
`warn` method. -/
def logMethodNames : List String :=
  ["create", "force", "skip", "remove", "notFound",
   "wouldCreate", "wouldForce", "wouldRemove", "error", "info"]

/-- Property access on the `log` object: `log.m` is defined exactly when `m`
is one of the object's keys.  Invoking an absent property in JS throws a
`TypeError`. -/
def hasLogMethod (m : String) : Bool := logMethodNames.contains m

/-- A JavaScript runtime error, as opposed to a deliberately thrown
validation error. -/
inductive JsError where
  | typeErrorNotAFunction (prop : String)
deriving DecidableEq

/-- The status line categories printed by the `log` object; each carries the
path it reports on.  The formatted text and colour codes are immaterial to
the claims, so a line is identified by its category and path. -/
inductive LogLine where
  | create (p : String)
  | forced (p : String)
  | skip (p : String)
  | remove (p : String)
  | notFound (p : String)
  | wouldCreate (p : String)
  | wouldForce (p : String)
  | wouldRemove (p : String)
deriving DecidableEq

/-! ### `src/lib/files.ts` -/

/-- `writeFile` from `src/lib/files.ts` lines 7-38.  Returns whether a write
occurred (in dry-run mode: whether one would), the resulting filesystem, and
the status lines printed.  An existing file without `force` is skipped before
the dry-run check; a real write creates the parent directory when missing
(`mkdirSync` with `recursive`, modelled as recording the directory) and then
stores the content. -/
def writeFile (filePath content : String) (options : GeneratorOptions) (fs : FS) :
    Bool × FS × List LogLine :=
  let exists_ := existsSyncFS fs filePath
  if exists_ && !options.force then
    (false, fs, [LogLine.skip filePath])
  else if options.dryRun then
    (true, fs,
      [if exists_ && options.force then LogLine.wouldForce filePath
       else LogLine.wouldCreate filePath])
  else
    let dir := dirname filePath
    let fs1 := if existsSyncFS fs dir then fs else { fs with dirs := dir :: fs.dirs }
    let fs2 := { fs1 with files := setFile fs1.files filePath content }
    (true, fs2,
      [if exists_ && options.force then LogLine.forced filePath
       else LogLine.create filePath])

/-- Remove a directory and everything beneath it (`fs.rmSync` with
`recursive`). -/
def removeDirFS (fs : FS) (dirPath : String) : FS :=
  { files := fs.files.filter (fun kv => !((dirPath ++ "/").isPrefixOf kv.1)),
    dirs := fs.dirs.filter (fun d => !(d == dirPath) && !((dirPath ++ "/").isPrefixOf d)) }

/-- `deleteDirectory` from `src/lib/files.ts` lines 40-54: missing directory
reports not-found and returns false; dry-run reports would-remove and leaves
the filesystem untouched; otherwise the directory is removed recursively. -/
def deleteDirectory (dirPath : String) (options : GeneratorOptions) (fs : FS) :
    Bool × FS × List LogLine :=
  if !(existsSyncFS fs dirPath) then
    (false, fs, [LogLine.notFound dirPath])
  else if options.dryRun then
    (true, fs, [LogLine.wouldRemove dirPath])
  else
    (true, removeDirFS fs dirPath, [LogLine.remove dirPath])

/-! ### `src/lib/config.ts` -/

/-- The `ProjectConfig` interface from `src/lib/types.ts`. -/
structure ProjectConfig where
  useSrc : Bool
  aliasPrefix : String
  dbPath : String
  appPath : String
deriving DecidableEq

/-- A parsed JSON value, for the `tsconfig.json` contents handed to
`JSON.parse`. -/
inductive Json where
  | obj (fields : List (String × Json))
  | arr (elems : List Json)
  | str (s : String)
  | num (n : Int)
  | boolVal (b : Bool)
  | null

/-- Key lookup in a JSON object field list. -/
def lookupJson : List (String × Json) → String → Option Json
  | [], _ => none
  | (k, v) :: rest, key => if k = key then some v else lookupJson rest key

/-- Optional chaining `j?.key`: a field lookup that yields nothing on
non-objects. -/
def jsonGet (j : Json) (key : String) : Option Json :=
  match j with
  | Json.obj fields => lookupJson fields key
  | _ => none

/-- The host-process facilities that are not filesystem state: the working
directory (`process.cwd()`) and `JSON.parse`, the latter modelled as an
oracle returning `none` when parsing throws. -/
structure Host where
  cwd : String
  jsonParse : String → Option Json

/-- Truncate one line at its first `//`, the per-line effect of the JS
replacement `content.replace(line-comment-regex, "")`. -/
def dropLineCommentAux : List Char → List Char
  | '/' :: '/' :: _ => []
  | c :: rest => c :: dropLineCommentAux rest
  | [] => []

/-- Remove single-line comments from every line of the tsconfig text
(`src/lib/config.ts` line 70, first `replace`). -/
def stripLineComments (s : String) : String :=
  String.intercalate "\n" ((s.splitOn "\n").map (fun l => String.mk (dropLineCommentAux l.data)))

/-- Find the closing `*/` of a block comment, returning the remainder after
it, or `none` when the comment is unterminated. -/
def findBlockClose : List Char → Option (List Char)
  | '*' :: '/' :: rest => some rest
  | _ :: rest => findBlockClose rest
  | [] => none

/-- Fuelled scanner removing each non-greedy `/* ... */` region; an
unterminated `/*` is left as-is, matching the JS regex which simply finds no
match there. -/
def stripBlockAux : Nat → List Char → List Char
  | 0, cs => cs
  | Nat.succ n, cs =>
    match cs with
    | '/' :: '*' :: rest =>
      (match findBlockClose rest with
       | some r => stripBlockAux n r
       | none => cs)
    | c :: rest => c :: stripBlockAux n rest
    | [] => []

/-- Remove block comments from the tsconfig text (`src/lib/config.ts`
line 70, second `replace`). -/
def stripBlockComments (s : String) : String :=
  String.mk (stripBlockAux s.data.length s.data)

/-- The alias-key regex `^(@\w*|~)\//` of `src/lib/config.ts` line 78: a key
starting with `~/` captures `~`; a key starting with `@`, a run of word
characters and a `/` captures the `@` and the run.  The greedy `\w*` needs no
backtracking because every earlier stopping point still faces a word
character, never the required `/`. -/
def keyAliasMatch (key : String) : Option String :=
  match key.data with
  | '~' :: '/' :: _ => some "~"
  | '@' :: rest =>
    let run := rest.takeWhile isWordChar
    (match rest.drop run.length with
     | '/' :: _ => some (String.mk ('@' :: run))
     | _ => none)
  | _ => none

/-- The db-directory probe loop of `src/lib/config.ts` lines 96-101: try each
candidate in order, stopping at the first that exists; also returns the list
of paths actually probed. -/
def dbScan (fs : FS) (cwd : String) : List String → Option String × List String
  | [] => (none, [])
  | c :: rest =>
    let p := pathJoin cwd c
    if existsSyncFS fs p then (some c, [p])
    else
      let r := dbScan fs cwd rest
      (r.1, p :: r.2)

/-- The uncached body of `detectProjectConfig` (`src/lib/config.ts` lines
58-107): probe for `src/app`, read the alias from `tsconfig.json` (defaulting
to `@` on a missing file, a parse failure, or no matching path key), probe
the candidate db directories, and fix the app path.  Besides the detected
configuration it returns the list of filesystem paths probed, so that the
caching layer's claim of not re-touching the filesystem is expressible. -/
def detectUncached (h : Host) (fs : FS) : ProjectConfig × List String :=
  let cwd := h.cwd
  let srcApp := pathJoin (pathJoin cwd "src") "app"
  let useSrc := existsSyncFS fs srcApp
  let tsconfigPath := pathJoin cwd "tsconfig.json"
  let tsExists := existsSyncFS fs tsconfigPath
  let aliasPrefix :=
    if tsExists then
      match h.jsonParse (stripBlockComments (stripLineComments (readFileSyncFS fs tsconfigPath))) with
      | none => "@"
      | some j =>
        match jsonGet j "compilerOptions" with
        | none => "@"
        | some co =>
          (match jsonGet co "paths" with
           | some (Json.obj kvs) => ((kvs.map Prod.fst).findSome? keyAliasMatch).getD "@"
           | _ => "@")
    else "@"
  let candidates := if useSrc then ["src/db", "src/lib/db", "src/server/db"]
    else ["db", "lib/db", "server/db"]
  let scanned := dbScan fs cwd candidates
  let dbPath := scanned.1.getD (if useSrc then "src/db" else "db")
  let appPath := if useSrc then "src/app" else "app"
  let probes := [srcApp, tsconfigPath] ++ (if tsExists then [tsconfigPath] else []) ++ scanned.2
  (⟨useSrc, aliasPrefix, dbPath, appPath⟩, probes)

/-- One call to `detectProjectConfig` (`src/lib/config.ts` lines 53-108) with
the module-level `cachedProjectConfig` made explicit: the cached value is
returned untouched with no filesystem probes; a cold call runs the detection
and stores its result.  Result: `(returned config, new cache, paths probed)`. -/
def detectProjectConfigRun (h : Host) (fs : FS) (cache : Option ProjectConfig) :
    ProjectConfig × Option ProjectConfig × List String :=
  match cache with
  | some c => (c, some c, [])
  | none =>
    let r := detectUncached h fs
    (r.1, some r.1, r.2)

/-- `resetProjectConfig` from `src/lib/config.ts` lines 136-138: clear the
cache. -/
def resetProjectConfig (_cache : Option ProjectConfig) : Option ProjectConfig := none

/-- `getDbPath` from `src/lib/config.ts` lines 130-133: join the working
directory with the detected (cached) db directory. -/
def getDbPathRun (h : Host) (fs : FS) (cache : Option ProjectConfig) :
    String × Option ProjectConfig :=
  let r := detectProjectConfigRun h fs cache
  (pathJoin h.cwd r.1.dbPath, r.2.1)

/-- First match of the dialect-marker regex `dialect:\s*["'](\w+)["']` when
anchored at the head of the character list: the literal `dialect:`, optional
whitespace, a quote, a non-empty word-character run (the capture), and a
closing quote (either kind, independent of the opening one). -/
def dialectMatchAt (cs : List Char) : Option String :=
  if "dialect:".data.isPrefixOf cs then
    match (cs.drop 8).dropWhile isWsCh with
    | q :: rest =>
      if isQuoteCh q then
        let word := rest.takeWhile isWordChar
        (if word.isEmpty then none
         else
           match rest.drop word.length with
           | q2 :: _ => if isQuoteCh q2 then some (String.mk word) else none
           | [] => none)
      else none
    | [] => none
  else none

/-- Leftmost match of the dialect-marker regex over the whole text
(`content.match(...)` in `src/lib/config.ts` line 24), returning the first
capture group. -/
def firstDialectMatch : List Char → Option String
  | [] => none
  | c :: rest =>
    match dialectMatchAt (c :: rest) with
    | some w => some w
    | none => firstDialectMatch rest

/-- `detectDialect` from `src/lib/config.ts` lines 13-38.  When
`drizzle.config.ts` is absent the source evaluates `log.warn(...)`; the `log`
object of `src/lib/logger.ts` defines no `warn` method, so in JS that
property access yields `undefined` and the call throws a `TypeError`, which
the embedding surfaces as an error.  Otherwise the dialect marker is matched:
`postgresql`/`postgres`/`pg` map to postgresql, `mysql`/`mysql2` to mysql,
and everything else (including no match) falls through to sqlite. -/
def detectDialect (h : Host) (fs : FS) : Except JsError Dialect :=
  let configPath := pathJoin h.cwd "drizzle.config.ts"
  if !(existsSyncFS fs configPath) then
    if hasLogMethod "warn" then Except.ok Dialect.sqlite
    else Except.error (JsError.typeErrorNotAFunction "warn")
  else
    let content := readFileSyncFS fs configPath
    match firstDialectMatch content.data with
    | some d =>
      if ["postgresql", "postgres", "pg"].contains d then Except.ok Dialect.postgresql
      else if ["mysql", "mysql2"].contains d then Except.ok Dialect.mysql
      else Except.ok Dialect.sqlite
    | none => Except.ok Dialect.sqlite

/-! ### Table-existence check (`src/lib/files.ts` lines 64-77) -/

/-- The three dialect table functions recognised by the existence regex
`(?:sqliteTable|pgTable|mysqlTable)`. -/
def tableFns : List String := ["sqliteTable", "pgTable", "mysqlTable"]

/-- The part of the existence regex after the table-function name:
`\s*\(\s*["']name["']` — optional whitespace, an opening parenthesis,
optional whitespace, a quote, the table name, and a closing quote (either
kind). -/
def matchTail (name : List Char) (cs : List Char) : Bool :=
  match cs.dropWhile isWsCh with
  | c :: rest =>
    c == '(' &&
      (match rest.dropWhile isWsCh with
       | q :: rest2 =>
         isQuoteCh q && name.isPrefixOf rest2 &&
           (match rest2.drop name.length with
            | q2 :: _ => isQuoteCh q2
            | [] => false)
       | [] => false)
  | [] => false

/-- Match of the full existence regex anchored at a position: one of the
three table-function literals followed by `matchTail`.  The three literals
differ in their first character, so at most one alternative can apply. -/
def matchAt (name : List Char) (cs : List Char) : Bool :=
  tableFns.any (fun fn => fn.data.isPrefixOf cs && matchTail name (cs.drop fn.data.length))

/-- `pattern.test(content)` for the existence regex of
`src/lib/files.ts` lines 73-76: some position of the content matches. -/
def testPattern (content tableName : String) : Bool :=
  content.data.tails.any (matchAt tableName.data)

/-- `modelExistsInSchema` from `src/lib/files.ts` lines 64-77: resolve the
schema path from the (cached) project configuration, return false when the
schema file does not exist, and otherwise test the dialect-insensitive
table-declaration regex against the file contents.  The configuration cache
is threaded explicitly, as in `detectProjectConfigRun`. -/
def modelExistsInSchema (h : Host) (fs : FS) (cache : Option ProjectConfig)
    (tableName : String) : Bool × Option ProjectConfig :=
  let r := getDbPathRun h fs cache
  let schemaPath := pathJoin r.1 "schema.ts"
  if existsSyncFS fs schemaPath then
    (testPattern (readFileSyncFS fs schemaPath) tableName, r.2)
  else (false, r.2)

/-- The schema path consulted by `modelExistsInSchema` for a given host,
filesystem and configuration cache. -/
def schemaPathOf (h : Host) (fs : FS) (cache : Option ProjectConfig) : String :=
  pathJoin (getDbPathRun h fs cache).1 "schema.ts"

/-- The spec's notion of a schema text declaring a table under some dialect:
the text decomposes around one of the three dialect table-function names
applied (modulo whitespace) to the quoted table name.  This is the
specification-side counterpart of `testPattern`. -/
def DeclaresTable (content tableName : String) : Prop :=
  ∃ fn pre ws1 ws2 q1 q2 post,
    fn ∈ tableFns ∧
    (∀ c ∈ ws1, isWsCh c = true) ∧
    (∀ c ∈ ws2, isWsCh c = true) ∧
    isQuoteCh q1 = true ∧
    isQuoteCh q2 = true ∧
    content.data =
      pre ++ (fn.data ++ (ws1 ++ '(' :: (ws2 ++ q1 :: (tableName.data ++ q2 :: post))))

/-! ### Dialect type mapper

Modelled from the spec: the module `src/lib/drizzle/` (re-exported as
`drizzleType` and friends by `src/lib/index.ts`) is not among the provided
sources; only its use sites and the sketch in `ARCHITECTURE.md` are.  The
abstract type set, the three per-dialect lookup tables and the divergences
below (sqlite boolean as integer with a mode flag, sqlite decimal as text,
native boolean and precise numerics under postgres/mysql, dialect-specific
enum columns, references always as integer foreign keys) follow sections 3
and 4.2 of the spec and the strategy-pattern sketch in `ARCHITECTURE.md`. -/

/-- The closed set of abstract field types: the eleven scalar kinds plus
`enum` and `reference`. -/
inductive FieldType where
  | fstring
  | ftext
  | finteger
  | fbigint
  | fboolean
  | ffloat
  | fdecimal
  | fdatetime
  | fdate
  | fjson
  | fuuid
  | fenum
  | freference
deriving DecidableEq, BEq

/-- A resolved column mapping: the column-construction syntax, the symbol to
import, and the module it comes from. -/
structure ColumnSpec where
  column : String
  importSym : String
  modulePath : String
deriving DecidableEq

/-- Modelled from the spec: the sqlite-family lookup table
(`SQLITE_TYPE_MAP` in the `ARCHITECTURE.md` sketch). -/
def SQLITE_TYPE_MAP : List (FieldType × ColumnSpec) :=
  [(FieldType.fstring, ⟨"text", "text", "drizzle-orm/sqlite-core"⟩),
   (FieldType.ftext, ⟨"text", "text", "drizzle-orm/sqlite-core"⟩),
   (FieldType.finteger, ⟨"integer", "integer", "drizzle-orm/sqlite-core"⟩),
   (FieldType.fbigint, ⟨"blob with mode bigint", "blob", "drizzle-orm/sqlite-core"⟩),
   (FieldType.fboolean, ⟨"integer with mode boolean", "integer", "drizzle-orm/sqlite-core"⟩),
   (FieldType.ffloat, ⟨"real", "real", "drizzle-orm/sqlite-core"⟩),
   (FieldType.fdecimal, ⟨"text", "text", "drizzle-orm/sqlite-core"⟩),
   (FieldType.fdatetime, ⟨"integer with mode timestamp", "integer", "drizzle-orm/sqlite-core"⟩),
   (FieldType.fdate, ⟨"integer with mode timestamp", "integer", "drizzle-orm/sqlite-core"⟩),
   (FieldType.fjson, ⟨"text with mode json", "text", "drizzle-orm/sqlite-core"⟩),
   (FieldType.fuuid, ⟨"text", "text", "drizzle-orm/sqlite-core"⟩),
   (FieldType.fenum, ⟨"text constrained to the enum values", "text", "drizzle-orm/sqlite-core"⟩),
   (FieldType.freference,
     ⟨"integer referencing the target id column", "integer", "drizzle-orm/sqlite-core"⟩)]

/-- Modelled from the spec: the postgres-family lookup table
(`POSTGRESQL_TYPE_MAP` in the `ARCHITECTURE.md` sketch). -/
def POSTGRESQL_TYPE_MAP : List (FieldType × ColumnSpec) :=
  [(FieldType.fstring, ⟨"text", "text", "drizzle-orm/pg-core"⟩),
   (FieldType.ftext, ⟨"text", "text", "drizzle-orm/pg-core"⟩),
   (FieldType.finteger, ⟨"integer", "integer", "drizzle-orm/pg-core"⟩),
   (FieldType.fbigint, ⟨"bigint with mode number", "bigint", "drizzle-orm/pg-core"⟩),
   (FieldType.fboolean, ⟨"boolean", "boolean", "drizzle-orm/pg-core"⟩),
   (FieldType.ffloat, ⟨"real", "real", "drizzle-orm/pg-core"⟩),
   (FieldType.fdecimal, ⟨"numeric with precision and scale", "numeric", "drizzle-orm/pg-core"⟩),
   (FieldType.fdatetime, ⟨"timestamp", "timestamp", "drizzle-orm/pg-core"⟩),
   (FieldType.fdate, ⟨"date", "date", "drizzle-orm/pg-core"⟩),
   (FieldType.fjson, ⟨"jsonb", "jsonb", "drizzle-orm/pg-core"⟩),
   (FieldType.fuuid, ⟨"uuid", "uuid", "drizzle-orm/pg-core"⟩),
   (FieldType.fenum, ⟨"native enum type", "pgEnum", "drizzle-orm/pg-core"⟩),
   (FieldType.freference,
     ⟨"integer referencing the target id column", "integer", "drizzle-orm/pg-core"⟩)]

/-- Modelled from the spec: the mysql-family lookup table
(`MYSQL_TYPE_MAP` in the `ARCHITECTURE.md` sketch). -/
def MYSQL_TYPE_MAP : List (FieldType × ColumnSpec) :=
  [(FieldType.fstring, ⟨"varchar with length 255", "varchar", "drizzle-orm/mysql-core"⟩),
   (FieldType.ftext, ⟨"text", "text", "drizzle-orm/mysql-core"⟩),
   (FieldType.finteger, ⟨"int", "int", "drizzle-orm/mysql-core"⟩),
   (FieldType.fbigint, ⟨"bigint with mode number", "bigint", "drizzle-orm/mysql-core"⟩),
   (FieldType.fboolean, ⟨"boolean", "boolean", "drizzle-orm/mysql-core"⟩),
   (FieldType.ffloat, ⟨"float", "float", "drizzle-orm/mysql-core"⟩),
   (FieldType.fdecimal, ⟨"decimal with precision and scale", "decimal", "drizzle-orm/mysql-core"⟩),
   (FieldType.fdatetime, ⟨"timestamp", "timestamp", "drizzle-orm/mysql-core"⟩),
   (FieldType.fdate, ⟨"date", "date", "drizzle-orm/mysql-core"⟩),
   (FieldType.fjson, ⟨"json", "json", "drizzle-orm/mysql-core"⟩),
   (FieldType.fuuid, ⟨"varchar with length 36", "varchar", "drizzle-orm/mysql-core"⟩),
   (FieldType.fenum, ⟨"native enum type", "mysqlEnum", "drizzle-orm/mysql-core"⟩),
   (FieldType.freference,
     ⟨"integer referencing the target id column", "int", "drizzle-orm/mysql-core"⟩)]

/-- Modelled from the spec: `drizzleType` resolves an abstract field type
against the lookup table of the requested dialect; an absent entry would be
the "unmapped pair" defect the spec rules out. -/
def drizzleType (f : FieldType) (d : Dialect) : Option ColumnSpec :=
  (match d with
   | Dialect.sqlite => SQLITE_TYPE_MAP
   | Dialect.postgresql => POSTGRESQL_TYPE_MAP
   | Dialect.mysql => MYSQL_TYPE_MAP).lookup f

/-! ### Schema merge engine

Modelled from the spec: `mergeTable` lives in `src/generators/model.ts`,
which is not among the provided sources; only its state machine in section
4.3 of the spec and the `modelExistsInSchema` existence check of
`src/lib/files.ts` are.  The four states (fresh file, append, skip, force
replace) are modelled with the source-translated `testPattern` as the
existence test; the text of the non-skip outputs follows the spec's
description (import preamble plus table blocks). -/

/-- A new table to merge: its name, its import preamble and its rendered
block. -/
structure TableDefinition where
  name : String
  importLine : String
  body : String
deriving DecidableEq

/-- Outcome category of a merge. -/
inductive MergeStatus where
  | created
  | appended
  | skipped
  | replaced
deriving DecidableEq

/-- Modelled from the spec: `tableExists` is the dialect-insensitive
declaration test, shared with `modelExistsInSchema`. -/
def tableExists (source tableName : String) : Bool := testPattern source tableName

/-- Modelled from the spec: drop the previously generated block of the named
table, the contiguous region from its `export const` declaration to the next
blank-line separated block boundary; imports are not pruned. -/
def removeTableBlock (source tableName : String) : String :=
  String.intercalate "\n\n"
    ((source.splitOn "\n\n").filter (fun block => !(tableExists block tableName)))

/-- Modelled from the spec: a fresh schema file is the import preamble and
the single table block. -/
def freshSchemaFile (tbl : TableDefinition) : String :=
  tbl.importLine ++ "\n\n" ++ tbl.body

/-- Modelled from the spec: appending a table block at end-of-file. -/
def appendTableBlock (source : String) (tbl : TableDefinition) : String :=
  source ++ "\n\n" ++ tbl.body

/-- Modelled from the spec: `mergeTable`'s four states — no existing file
emits a fresh one; an absent table is appended; a present table without
`force` is a skip that returns the input unchanged; a present table with
`force` is replaced. -/
def mergeTable (existing : Option String) (tbl : TableDefinition) (force : Bool) :
    String × MergeStatus :=
  match existing with
  | none => (freshSchemaFile tbl, MergeStatus.created)
  | some src =>
    if tableExists src tbl.name then
      if force then (appendTableBlock (removeTableBlock src tbl.name) tbl, MergeStatus.replaced)
      else (src, MergeStatus.skipped)
    else (appendTableBlock src tbl, MergeStatus.appended)

/-! ### Generator entry points (`src/generators/*.ts`)

Each entry point begins with `validateModelName(name)` and only then builds
its model context, parses fields, renders templates and touches the
filesystem.  Everything after the validation call is abstracted as an
arbitrary continuation `rest` on the filesystem state — the code after
validation depends on modules not under the provided sources (`strings.ts`,
`model.ts`, the page templates) and is irrelevant to the claim that an
invalid name aborts before any file I/O.  An invocation returns the final
filesystem and either the thrown validation error or success. -/

/-- `generateActions` from `src/generators/actions.ts` lines 27-37. -/
def generateActions (name : String) (_options : GeneratorOptions)
    (rest : FS → FS) (fs : FS) : FS × Except ValidationError Unit :=
  match validateModelName name with
  | Except.error e => (fs, Except.error e)
  | Except.ok _ => (rest fs, Except.ok ())

/-- `generateScaffold` from `src/generators/scaffold.ts` lines 208-229. -/
def generateScaffold (name : String) (_fieldArgs : List String)
    (_options : GeneratorOptions) (rest : FS → FS) (fs : FS) :
    FS × Except ValidationError Unit :=
  match validateModelName name with
  | Except.error e => (fs, Except.error e)
  | Except.ok _ => (rest fs, Except.ok ())

/-- `generateResource` from `src/generators/resource.ts`. -/
def generateResource (name : String) (_fieldArgs : List String)
    (_options : GeneratorOptions) (rest : FS → FS) (fs : FS) :
    FS × Except ValidationError Unit :=
  match validateModelName name with
  | Except.error e => (fs, Except.error e)
  | Except.ok _ => (rest fs, Except.ok ())

/-- `generateApi` from `src/generators/api.ts`. -/
def generateApi (name : String) (_fieldArgs : List String)
    (_options : GeneratorOptions) (rest : FS → FS) (fs : FS) :
    FS × Except ValidationError Unit :=
  match validateModelName name with
  | Except.error e => (fs, Except.error e)
  | Except.ok _ => (rest fs, Except.ok ())

/-- `destroyScaffold` from `src/generators/destroy.ts`. -/
def destroyScaffold (name : String) (_options : GeneratorOptions)
    (rest : FS → FS) (fs : FS) : FS × Except ValidationError Unit :=
  match validateModelName name with
  | Except.error e => (fs, Except.error e)
  | Except.ok _ => (rest fs, Except.ok ())

/-- `destroyResource` from `src/generators/destroy.ts`. -/
def destroyResource (name : String) (_options : GeneratorOptions)
    (rest : FS → FS) (fs : FS) : FS × Except ValidationError Unit :=
  match validateModelName name with
  | Except.error e => (fs, Except.error e)
  | Except.ok _ => (rest fs, Except.ok ())

/-- `destroyApi` from `src/generators/destroy.ts`. -/
def destroyApi (name : String) (_options : GeneratorOptions)
    (rest : FS → FS) (fs : FS) : FS × Except ValidationError Unit :=
  match validateModelName name with
  | Except.error e => (fs, Except.error e)
  | Except.ok _ => (rest fs, Except.ok ())

/-- The claim's characterisation of an invalid model name: empty, not a
letter-initial alphanumeric identifier, or a reserved word in any letter
case. -/
def ClaimInvalidModelName (name : String) : Prop :=
  name = "" ∨ modelNamePat name = false ∨ reservedNames.contains (toLowerAscii name) = true

instance (name : String) : Decidable (ClaimInvalidModelName name) := by
  unfold ClaimInvalidModelName; infer_instance

/-! ### Concrete values used to evaluate the theorems on sample inputs -/

/-- A host whose working directory holds no files at all. -/
def hostBare : Host := ⟨"/project", fun _ => none⟩

/-- The empty filesystem. -/
def fsEmpty : FS := ⟨[], []⟩

/-- All generator options off. -/
def optsNone : GeneratorOptions := ⟨false, false, false, false⟩

/-- Dry-run only. -/
def optsDry : GeneratorOptions := ⟨false, true, false, false⟩

/-- A filesystem holding one previously generated file. -/
def fsOneFile : FS := ⟨[("/project/app/posts/actions.ts", "old content")], []⟩

/-- A schema text declaring a `posts` table in postgres syntax. -/
def schemaContentW : String := "export const posts = pgTable(\x22posts\x22, cols)"

/-- A filesystem holding that schema at the default db path of `hostBare`'s
sibling host below. -/
def fsSchemaW : FS := ⟨[("/project/db/schema.ts", schemaContentW)], []⟩

/-- A table definition named `posts`. -/
def tblPosts : TableDefinition := ⟨"posts", "import line", "table body"⟩

end Brizzle

namespace Brizzle

/-! ## Theorems -/

/-! ### Helper lemmas -/

theorem dropWhile_append_all {p : Char → Bool} {l1 l2 : List Char}
    (h : ∀ c ∈ l1, p c = true) : (l1 ++ l2).dropWhile p = l2.dropWhile p := by
  induction l1 with
  | nil => rfl
  | cons a t ih =>
    have ha : p a = true := h a (List.mem_cons_self a t)
    rw [List.cons_append, List.dropWhile_cons, if_pos ha]
    exact ih (fun c hc => h c (List.mem_cons_of_mem a hc))

theorem isPrefixOf_append_self (l t : List Char) : l.isPrefixOf (l ++ t) = true := by
  induction l with
  | nil => simp [List.isPrefixOf]
  | cons a l ih => simp [List.isPrefixOf, ih]

theorem notWs_of_isQuote {q : Char} (h : isQuoteCh q = true) : isWsCh q = false := by
  simp only [isQuoteCh, Bool.or_eq_true, beq_iff_eq] at h
  rcases h with h | h <;> subst h <;> decide

theorem matchTail_decomp (name ws1 ws2 post : List Char) (q1 q2 : Char)
    (h1 : ∀ c ∈ ws1, isWsCh c = true) (h2 : ∀ c ∈ ws2, isWsCh c = true)
    (hq1 : isQuoteCh q1 = true) (hq2 : isQuoteCh q2 = true) :
    matchTail name (ws1 ++ '(' :: (ws2 ++ q1 :: (name ++ q2 :: post))) = true := by
  have e1 : (ws1 ++ '(' :: (ws2 ++ q1 :: (name ++ q2 :: post))).dropWhile isWsCh
      = '(' :: (ws2 ++ q1 :: (name ++ q2 :: post)) := by
    rw [dropWhile_append_all h1, List.dropWhile_cons,
      if_neg (by decide : ¬ isWsCh '(' = true)]
  have e2 : (ws2 ++ q1 :: (name ++ q2 :: post)).dropWhile isWsCh
      = q1 :: (name ++ q2 :: post) := by
    rw [dropWhile_append_all h2, List.dropWhile_cons,
      if_neg (by simp [notWs_of_isQuote hq1] : ¬ isWsCh q1 = true)]
  unfold matchTail
  rw [e1]
  simp only [e2, hq1, hq2, isPrefixOf_append_self, List.drop_left, Bool.and_true,
    Bool.true_and, beq_self_eq_true]

theorem testPattern_of_declares {content tableName : String}
    (h : DeclaresTable content tableName) : testPattern content tableName = true := by
  obtain ⟨fn, pre, ws1, ws2, q1, q2, post, hfn, hw1, hw2, hq1, hq2, heq⟩ := h
  unfold testPattern
  rw [List.any_eq_true]
  refine ⟨fn.data ++ (ws1 ++ '(' :: (ws2 ++ q1 :: (tableName.data ++ q2 :: post))), ?_, ?_⟩
  · rw [List.mem_tails]
    exact ⟨pre, heq.symm⟩
  · unfold matchAt
    rw [List.any_eq_true]
    refine ⟨fn, hfn, ?_⟩
    rw [List.drop_left]
    simp [isPrefixOf_append_self,
      matchTail_decomp tableName.data ws1 ws2 post q1 q2 hw1 hw2 hq1 hq2]

theorem lookup_setFile (l : List (String × String)) (p c : String) :
    (setFile l p c).lookup p = some c := by
  induction l with
  | nil => simp [setFile, List.lookup]
  | cons kv rest ih =>
    obtain ⟨q, v⟩ := kv
    by_cases h : q = p
    · subst h
      simp [setFile, List.lookup]
    · simp only [setFile, if_neg h, List.lookup]
      have : (p == q) = false := by
        simp [beq_iff_eq]
        exact fun hh => h hh.symm
      rw [this]
      exact ih

theorem validateModelName_error_of_invalid (name : String)
    (h : ClaimInvalidModelName name) : ∃ e, validateModelName name = Except.error e := by
  unfold validateModelName
  split_ifs with h1 h2 h3
  · exact ⟨_, rfl⟩
  · exact ⟨_, rfl⟩
  · exact ⟨_, rfl⟩
  · exfalso
    rcases h with h | h | h
    · exact h1 h
    · exact h2 h
    · exact h3 h

/-! ### Claim theorems -/

/-- C1: for every field-definition string whose (nullable-stripped) type
segment is `enum`, `validateFieldDefinition` throws a validation error
whenever the third colon-separated segment is missing, empty, or the literal
`unique` — in particular `name:enum:unique` is rejected, and no silently
empty enum is produced. -/
theorem validateFieldDefinition_enum_missing_values (fd : String)
    (htype : fieldTypeOf fd = "enum")
    (hthird : (fieldParts fd).get? 2 = none ∨ (fieldParts fd).get? 2 = some ""
      ∨ (fieldParts fd).get? 2 = some "unique") :
    ∃ e, validateFieldDefinition fd = Except.error e := by
  unfold validateFieldDefinition
  split_ifs with h1 h2 h3
  · exact ⟨_, rfl⟩
  · exact ⟨_, rfl⟩
  · exact ⟨_, rfl⟩
  · rcases hthird with h | h | h <;> rw [h]
    · exact ⟨_, rfl⟩
    · exact ⟨ValidationError.enumRequiresValues (fieldNameOf fd), by simp⟩
    · exact ⟨ValidationError.enumRequiresValues (fieldNameOf fd), by simp⟩

/-- C1 witness: the sharp-edge input `name:enum:unique` has type segment
`enum`, third segment `unique`, and is rejected. -/
theorem validateFieldDefinition_enum_missing_values_witness :
    fieldTypeOf "name:enum:unique" = "enum" ∧
    ∃ e, validateFieldDefinition "name:enum:unique" = Except.error e :=
  ⟨by decide,
   validateFieldDefinition_enum_missing_values "name:enum:unique" (by decide)
     (Or.inr (Or.inr (by decide)))⟩

/-- C9: `validateFieldDefinition` reports a name error exactly when the name
segment, after stripping a trailing `?`, is empty or fails the camelCase
identifier pattern (lowercase letter followed by letters/digits); every
conforming name passes the name checks. -/
theorem validateFieldDefinition_name_check (fd : String) :
    isNameError (validateFieldDefinition fd) =
      (decide (fieldNameOf fd = "") || !(camelPat (fieldNameOf fd))) := by
  unfold validateFieldDefinition
  split_ifs with h1 h2 h3 h4
  · simp [isNameError, h1]
  · simp [isNameError, h1, h2]
  · simp only [Bool.not_eq_false] at h2
    simp [isNameError, h1, h2]
  · simp only [Bool.not_eq_false] at h2
    cases hv : (fieldParts fd).get? 2 with
    | none => simp [isNameError, h1, h2]
    | some v =>
      by_cases hvv : v = "" ∨ v = "unique"
      · simp [isNameError, h1, h2, hvv]
      · simp [isNameError, h1, h2, hvv]
  · simp only [Bool.not_eq_false] at h2
    simp [isNameError, h1, h2]

/-- C3 (code bug): with no `drizzle.config.ts` in the working directory,
`detectDialect` does not return `"sqlite"` — it evaluates `log.warn`, which
the `log` object of `src/lib/logger.ts` does not define, so the call throws
a `TypeError` in contradiction with the function's own doc comment
(`defaults to "sqlite" if not found`) and with the generator tests that
exercise this path. -/
theorem detectDialect_missing_config_throws :
    detectDialect hostBare fsEmpty =
      Except.error (JsError.typeErrorNotAFunction "warn") := rfl

/-- C5: the dialect type mapping is total — for every abstract field type
(the eleven scalar kinds plus enum and reference) and every dialect, the
lookup table resolves to a column specification; no pair is unmapped. -/
theorem drizzleType_total : ∀ (f : FieldType) (d : Dialect),
    (drizzleType f d).isSome = true := by
  intro f d
  cases f <;> cases d <;> rfl

/-- C10: the detected project configuration is cached — a call made with the
cache produced by a cold call returns the identical value and probes no
filesystem path — and `resetProjectConfig` invalidates the cache so that the
next call re-runs detection against the filesystem. -/
theorem projectConfig_cache_reset (h : Host) (fs : FS) :
    (detectProjectConfigRun h fs ((detectProjectConfigRun h fs none).2.1)).1 =
        (detectProjectConfigRun h fs none).1 ∧
    (detectProjectConfigRun h fs ((detectProjectConfigRun h fs none).2.1)).2.2 = [] ∧
    detectProjectConfigRun h fs
        (resetProjectConfig ((detectProjectConfigRun h fs none).2.1)) =
      detectProjectConfigRun h fs none := by
  simp [detectProjectConfigRun, resetProjectConfig]

/-- C4: for every invalid model name — empty, not a letter-initial
alphanumeric identifier, or a reserved word in any letter case — each
generator entry point throws the validation error and leaves the filesystem
exactly as it was, whatever work (`rest`) would have followed validation:
no file is created, modified or removed. -/
theorem generators_throw_before_io (name : String) (h : ClaimInvalidModelName name)
    (opts : GeneratorOptions) (fieldArgs : List String)
    (r1 r2 r3 r4 r5 r6 r7 : FS → FS) (fs : FS) :
    (∃ e, generateActions name opts r1 fs = (fs, Except.error e)) ∧
    (∃ e, generateScaffold name fieldArgs opts r2 fs = (fs, Except.error e)) ∧
    (∃ e, generateResource name fieldArgs opts r3 fs = (fs, Except.error e)) ∧
    (∃ e, generateApi name fieldArgs opts r4 fs = (fs, Except.error e)) ∧
    (∃ e, destroyScaffold name opts r5 fs = (fs, Except.error e)) ∧
    (∃ e, destroyResource name opts r6 fs = (fs, Except.error e)) ∧
    (∃ e, destroyApi name opts r7 fs = (fs, Except.error e)) := by
  obtain ⟨e, he⟩ := validateModelName_error_of_invalid name h
  refine ⟨⟨e, ?_⟩, ⟨e, ?_⟩, ⟨e, ?_⟩, ⟨e, ?_⟩, ⟨e, ?_⟩, ⟨e, ?_⟩, ⟨e, ?_⟩⟩ <;>
    simp [generateActions, generateScaffold, generateResource, generateApi,
      destroyScaffold, destroyResource, destroyApi, he]

/-- C4 witness: the reserved name `db` is invalid and `generateActions`
aborts on it with the filesystem untouched. -/
theorem generators_throw_before_io_witness :
    ClaimInvalidModelName "db" ∧
    ∃ e, generateActions "db" optsNone id fsEmpty = (fsEmpty, Except.error e) :=
  ⟨by decide,
   (generators_throw_before_io "db" (by decide) optsNone [] id id id id id id id
     fsEmpty).1⟩

/-- C6: when the target file exists and `force` is not set, `writeFile`
performs no write, reports the skip status line and returns `false`; in a
real (non-dry-run) invocation where the file is absent or `force` is set, the
write occurs — the file holds the new content — and it returns `true`. -/
theorem writeFile_skip_and_write (p c : String) (opts : GeneratorOptions) (fs : FS) :
    (existsSyncFS fs p = true → opts.force = false →
       writeFile p c opts fs = (false, fs, [LogLine.skip p])) ∧
    (opts.dryRun = false → (existsSyncFS fs p = false ∨ opts.force = true) →
       (writeFile p c opts fs).1 = true ∧
       ((writeFile p c opts fs).2.1.files.lookup p) = some c) := by
  constructor
  · intro h1 h2
    simp [writeFile, h1, h2]
  · intro hd hor
    have hcond : (existsSyncFS fs p && !opts.force) = false := by
      rcases hor with h | h <;> simp [h]
    simp [writeFile, hcond, hd, lookup_setFile]

/-- C6 witness: an existing file without `force` is skipped unchanged; a
missing file is written and the call returns true. -/
theorem writeFile_skip_and_write_witness :
    writeFile "/project/app/posts/actions.ts" "new content" optsNone fsOneFile =
      (false, fsOneFile, [LogLine.skip "/project/app/posts/actions.ts"]) ∧
    ((writeFile "/project/app/posts/actions.ts" "new content" optsNone fsEmpty).1 = true ∧
     ((writeFile "/project/app/posts/actions.ts" "new content" optsNone
        fsEmpty).2.1.files.lookup "/project/app/posts/actions.ts") = some "new content") :=
  ⟨(writeFile_skip_and_write _ _ _ _).1 (by decide) rfl,
   (writeFile_skip_and_write _ _ _ _).2 rfl (Or.inl (by decide))⟩

/-- C7: in dry-run mode `writeFile` returns the same would-write decision as
the corresponding real run while leaving the filesystem (files and
directories alike) exactly unchanged, and `deleteDirectory` removes
nothing. -/
theorem dryRun_no_mutation (p c d : String) (opts : GeneratorOptions) (fs : FS)
    (hd : opts.dryRun = true) :
    (writeFile p c opts fs).2.1 = fs ∧
    (writeFile p c opts fs).1 =
      (writeFile p c ⟨opts.force, false, opts.uuid, opts.noTimestamps⟩ fs).1 ∧
    (deleteDirectory d opts fs).2.1 = fs := by
  refine ⟨?_, ?_, ?_⟩
  · cases hcond : (existsSyncFS fs p && !opts.force) <;> simp [writeFile, hcond, hd]
  · cases hcond : (existsSyncFS fs p && !opts.force) <;> simp [writeFile, hcond, hd]
  · cases hex : existsSyncFS fs d <;> simp [deleteDirectory, hex, hd]

/-- C7 witness: a dry-run write onto an existing filesystem changes nothing
and decides as the real run would. -/
theorem dryRun_no_mutation_witness :
    (writeFile "/x.ts" "y" optsDry fsOneFile).2.1 = fsOneFile ∧
    (writeFile "/x.ts" "y" optsDry fsOneFile).1 =
      (writeFile "/x.ts" "y" ⟨optsDry.force, false, optsDry.uuid,
        optsDry.noTimestamps⟩ fsOneFile).1 ∧
    (deleteDirectory "/project/app/posts" optsDry fsOneFile).2.1 = fsOneFile :=
  dryRun_no_mutation "/x.ts" "y" "/project/app/posts" optsDry fsOneFile rfl

/-- C8: merging into a schema that already declares the table with
`force = false` is a skip that returns the input text unchanged, and a
second identical merge is likewise a no-op — merge is idempotent on the
already-present case. -/
theorem mergeTable_skip_idempotent (src : String) (tbl : TableDefinition)
    (h : tableExists src tbl.name = true) :
    mergeTable (some src) tbl false = (src, MergeStatus.skipped) ∧
    mergeTable (some (mergeTable (some src) tbl false).1) tbl false =
      (src, MergeStatus.skipped) := by
  have h1 : mergeTable (some src) tbl false = (src, MergeStatus.skipped) := by
    simp [mergeTable, h]
  refine ⟨h1, ?_⟩
  rw [h1]
  exact h1

/-- C8 witness: a schema already declaring `posts` is returned unchanged by
one merge and by two. -/
theorem mergeTable_skip_idempotent_witness :
    mergeTable (some schemaContentW) tblPosts false =
      (schemaContentW, MergeStatus.skipped) ∧
    mergeTable (some (mergeTable (some schemaContentW) tblPosts false).1) tblPosts false =
      (schemaContentW, MergeStatus.skipped) :=
  mergeTable_skip_idempotent schemaContentW tblPosts (by decide)

/-- C2: `modelExistsInSchema` returns false when the schema file does not
exist, and returns true whenever the schema text declares the table under
any of the three dialects' table-function syntaxes — the check consults no
dialect configuration at all. -/
theorem modelExistsInSchema_dialect_aware (h : Host) (fs : FS)
    (cache : Option ProjectConfig) (tableName : String) :
    (existsSyncFS fs (schemaPathOf h fs cache) = false →
       (modelExistsInSchema h fs cache tableName).1 = false) ∧
    (existsSyncFS fs (schemaPathOf h fs cache) = true →
       DeclaresTable (readFileSyncFS fs (schemaPathOf h fs cache)) tableName →
       (modelExistsInSchema h fs cache tableName).1 = true) := by
  constructor
  · intro hex
    unfold schemaPathOf at hex
    simp [modelExistsInSchema, hex]
  · intro hex hdecl
    unfold schemaPathOf at hex
    unfold schemaPathOf at hdecl
    simp [modelExistsInSchema, hex, testPattern_of_declares hdecl]

/-- C2 witness: a schema at the detected default path declaring `posts` with
the postgres table function is found, with no dialect configured anywhere. -/
theorem modelExistsInSchema_dialect_aware_witness :
    (modelExistsInSchema hostBare fsSchemaW none "posts").1 = true := by
  refine (modelExistsInSchema_dialect_aware hostBare fsSchemaW none "posts").2
    (by decide) ?_
  exact ⟨"pgTable", "export const posts = ".data, [], [], dquote, dquote,
    ", cols)".data, by decide, by decide, by decide, by decide, by decide, by decide⟩

end Brizzle
